import Mathlib

/-!
# Boot-environment FAT device support (`boot/lib/bootfat.c`)

A shallow embedding of the I/O buffer routines and the block-transfer adapter of
`bootfat.c`, and theorems about them.

Conventions of the embedding.

* `UINTN` and pointers are 64-bit: they are natural numbers, and every addition,
  subtraction and multiplication the source performs on them is taken modulo
  `WORD = 2 ^ 64`.
* Memory is one flat byte-addressed space, `Memory = Nat → Byte`; a `PVOID` is an
  address into it.
* A `BOOT_IO_BUFFER` descriptor is a record. A routine that receives a pointer to a
  descriptor takes the descriptor's contents and gives back the contents it leaves
  behind.
* Firmware, the boot allocator, `RtlCopyMemory`, `RtlZeroMemory` and the `ASSERT`
  macro are not defined in `bootfat.c`; each is either a parameter or a definition
  marked as modelled.
-/

namespace BootFat

/-! ## Machine words, memory, status codes -/

/-- The number of values of a `UINTN` (and of a pointer): `2 ^ 64`. -/
abbrev WORD : Nat := 18446744073709551616

/-- The number of values of a `ULONG`: `2 ^ 32`. -/
abbrev ULONG_RANGE : Nat := 4294967296

/-- One byte of memory. -/
abbrev Byte := Nat

/-- Flat byte-addressed memory. -/
abbrev Memory := Nat → Byte

/-- Status codes (`KSTATUS`). -/
abbrev KSTATUS := Int

/-- Modelled from the spec: the success status; the header defining it is not in the
source tree. -/
def STATUS_SUCCESS : KSTATUS := 0

/-- Modelled from the spec: the `KSUCCESS` macro, true exactly for the success
status; the header defining it is not in the source tree. -/
def KSUCCESS (Status : KSTATUS) : Bool := Status == STATUS_SUCCESS

/-- The `(ULONG)` cast: truncation to 32 bits. -/
def castULONG (Value : Nat) : Nat := Value % ULONG_RANGE

/-- Modelled from the spec: the `ASSERT` macro is not in the source tree. The spec
treats a failed assertion as a contract defect that is not surfaced as a status:
a routine either returns a value, or stops at a failed assertion. Both cases carry
the state the routine leaves behind. -/
inductive Outcome (ρ σ : Type) where
  | returned (value : ρ) (state : σ)
  | assertionFailed (state : σ)

/-- The state a routine leaves behind, whichever way it ended. -/
def Outcome.state {ρ σ : Type} : Outcome ρ σ → σ
  | .returned _ s => s
  | .assertionFailed s => s

/-- Whether the routine returned (no assertion failed). -/
def Outcome.isReturned {ρ σ : Type} : Outcome ρ σ → Bool
  | .returned _ _ => true
  | .assertionFailed _ => false

/-! ## The I/O buffer -/

/-- The `BOOT_IO_BUFFER` structure: `Data` is the address of the backing store. -/
structure BOOT_IO_BUFFER where
  Data : Nat
  Size : Nat
  CurrentOffset : Nat
deriving DecidableEq

/-- The value of `sizeof(BOOT_IO_BUFFER)`: a pointer and two `UINTN`s of 8 bytes. -/
def sizeofBootIoBuffer : Nat := 24

/-- The routine `FatAllocateIoBuffer`. `BoAllocateMemory` is the boot allocator (address
`0` is `NULL`). The result is `none` for `NULL`, otherwise the address of the
descriptor and the descriptor's contents. -/
def FatAllocateIoBuffer (BoAllocateMemory : Nat → Nat) (_DeviceToken : Nat) (Size : Nat) :
    Option (Nat × BOOT_IO_BUFFER) :=
  let IoBuffer := BoAllocateMemory ((sizeofBootIoBuffer + Size) % WORD)
  if IoBuffer = 0 then
    none
  else
    some (IoBuffer,
      { Data := (IoBuffer + sizeofBootIoBuffer) % WORD, Size := Size, CurrentOffset := 0 })

/-- The routine `FatCreateIoBuffer`: a descriptor over the caller's region `Buffer`. -/
def FatCreateIoBuffer (BoAllocateMemory : Nat → Nat) (Buffer : Nat) (Size : Nat) :
    Option (Nat × BOOT_IO_BUFFER) :=
  let IoBuffer := BoAllocateMemory sizeofBootIoBuffer
  if IoBuffer = 0 then
    none
  else
    some (IoBuffer, { Data := Buffer, Size := Size, CurrentOffset := 0 })

/-- The routine `FatIoBufferUpdateOffset`: the offset is updated first (modulo `2 ^ 64`),
then the assertion `CurrentOffset <= Size` is checked on the updated descriptor. -/
def FatIoBufferUpdateOffset (FatIoBuffer : BOOT_IO_BUFFER) (OffsetUpdate : Nat)
    (Decrement : Bool) : Outcome Unit BOOT_IO_BUFFER :=
  let IoBuffer : BOOT_IO_BUFFER :=
    if Decrement = false then
      { FatIoBuffer with
        CurrentOffset := (FatIoBuffer.CurrentOffset + OffsetUpdate) % WORD }
    else
      { FatIoBuffer with
        CurrentOffset := (FatIoBuffer.CurrentOffset + (WORD - OffsetUpdate % WORD)) % WORD }
  if IoBuffer.CurrentOffset ≤ IoBuffer.Size then
    .returned () IoBuffer
  else
    .assertionFailed IoBuffer

/-- One cursor update of a sequence: the delta and the `Decrement` flag. -/
abbrev OffsetUpdateCall := Nat × Bool

/-- A sequence of `FatIoBufferUpdateOffset` calls on one buffer: the outcome of every
call that runs, in order. The sequence stops at the first failed assertion. -/
def runOffsetUpdates (IoBuffer : BOOT_IO_BUFFER) :
    List OffsetUpdateCall → List (Outcome Unit BOOT_IO_BUFFER)
  | [] => []
  | (OffsetUpdate, Decrement) :: rest =>
    match FatIoBufferUpdateOffset IoBuffer OffsetUpdate Decrement with
    | .returned _ next => .returned () next :: runOffsetUpdates next rest
    | .assertionFailed next => [.assertionFailed next]

/-- The deltas of a sequence are valid: a forward delta `d` has
`CurrentOffset + d ≤ Size` and a backward delta `d` has `d ≤ CurrentOffset`, at the
buffer state each call starts from. -/
def ValidOffsetUpdates (IoBuffer : BOOT_IO_BUFFER) : List OffsetUpdateCall → Prop
  | [] => True
  | (OffsetUpdate, Decrement) :: rest =>
    (if Decrement = false then IoBuffer.CurrentOffset + OffsetUpdate ≤ IoBuffer.Size
      else OffsetUpdate ≤ IoBuffer.CurrentOffset) ∧
    ValidOffsetUpdates (FatIoBufferUpdateOffset IoBuffer OffsetUpdate Decrement).state rest

/-- Validity of a sequence of deltas can be checked by evaluation. -/
instance decidableValidOffsetUpdates :
    (calls : List OffsetUpdateCall) → (IoBuffer : BOOT_IO_BUFFER) →
      Decidable (ValidOffsetUpdates IoBuffer calls)
  | [], _ => isTrue trivial
  | (OffsetUpdate, Decrement) :: rest, IoBuffer =>
    have := decidableValidOffsetUpdates rest
      (FatIoBufferUpdateOffset IoBuffer OffsetUpdate Decrement).state
    inferInstanceAs (Decidable
      ((if Decrement = false then IoBuffer.CurrentOffset + OffsetUpdate ≤ IoBuffer.Size
        else OffsetUpdate ≤ IoBuffer.CurrentOffset) ∧
      ValidOffsetUpdates (FatIoBufferUpdateOffset IoBuffer OffsetUpdate Decrement).state rest))

/-! ## Memory helpers -/

/-- Memory after one byte store. -/
def writeByte (mem : Memory) (Address : Nat) (Value : Byte) : Memory :=
  fun a => if a = Address then Value else mem a

/-- Modelled from the spec: `RtlZeroMemory` is not in the source tree. It stores a zero
byte at `Buffer`, `Buffer + 1`, ..., `Buffer + ByteCount - 1`, in that order. -/
def RtlZeroMemory (mem : Memory) (Buffer : Nat) : Nat → Memory
  | 0 => mem
  | ByteCount + 1 => writeByte (RtlZeroMemory mem Buffer ByteCount) (Buffer + ByteCount) 0

/-- Modelled from the spec: `RtlCopyMemory` is not in the source tree. It copies one byte
at a time from `Source + i` to `Destination + i` for `i = 0, ..., ByteCount - 1`, in
that order and with no overlap detection; each byte is read from memory as it is at
that moment. -/
def RtlCopyMemory (mem : Memory) (Destination Source : Nat) : Nat → Memory
  | 0 => mem
  | ByteCount + 1 =>
    let copied := RtlCopyMemory mem Destination Source ByteCount
    writeByte copied (Destination + ByteCount) (copied (Source + ByteCount))

/-! ## Zeroing and copying -/

/-- The routine `FatZeroIoBuffer`. The result is the status, the descriptor as the routine
leaves it, and the memory as the routine leaves it. -/
def FatZeroIoBuffer (FatIoBuffer : BOOT_IO_BUFFER) (Offset ByteCount : Nat) (mem : Memory) :
    KSTATUS × BOOT_IO_BUFFER × Memory :=
  let IoBuffer := FatIoBuffer
  let mem := RtlZeroMemory mem
    ((IoBuffer.Data + IoBuffer.CurrentOffset + Offset) % WORD) ByteCount
  (STATUS_SUCCESS, IoBuffer, mem)

/-- The routine `FatCopyIoBuffer`. The result is the status and the memory as the routine
leaves it; neither descriptor is written. -/
def FatCopyIoBuffer (Destination : BOOT_IO_BUFFER) (DestinationOffset : Nat)
    (Source : BOOT_IO_BUFFER) (SourceOffset ByteCount : Nat) (mem : Memory) :
    KSTATUS × Memory :=
  let DestinationIoBuffer := Destination
  let DestinationBuffer :=
    (DestinationIoBuffer.Data + DestinationIoBuffer.CurrentOffset + DestinationOffset) % WORD
  let SourceIoBuffer := Source
  let SourceBuffer :=
    (SourceIoBuffer.Data + SourceIoBuffer.CurrentOffset + SourceOffset) % WORD
  (STATUS_SUCCESS, RtlCopyMemory mem DestinationBuffer SourceBuffer ByteCount)

/-- The routine `FatCopyIoBufferData`. `Buffer` is the address of the linear region. The
assertion is evaluated in `UINTN` arithmetic. The state is the descriptor and the
memory as the routine leaves them. -/
def FatCopyIoBufferData (FatIoBuffer : BOOT_IO_BUFFER) (Buffer Offset Size : Nat)
    (ToIoBuffer : Bool) (mem : Memory) : Outcome KSTATUS (BOOT_IO_BUFFER × Memory) :=
  let IoBuffer := FatIoBuffer
  if ¬ ((IoBuffer.CurrentOffset + Offset + Size) % WORD ≤ IoBuffer.Size) then
    .assertionFailed (IoBuffer, mem)
  else
    let Destination := (IoBuffer.Data + IoBuffer.CurrentOffset + Offset) % WORD
    let Source := Buffer
    let (Destination, Source) :=
      if ToIoBuffer = false then (Buffer, Destination) else (Destination, Source)
    .returned STATUS_SUCCESS (IoBuffer, RtlCopyMemory mem Destination Source Size)

/-! ## Block transfers -/

/-- The fields of `BOOT_VOLUME` that `bootfat.c` reads: the firmware disk handle and
`Parameters.BlockSize`. -/
structure BOOT_VOLUME where
  DiskHandle : Nat
  BlockSize : Nat
deriving DecidableEq

/-- The firmware's disk routines, declared in `firmware.h` and defined outside
`bootfat.c`: each takes the disk handle, the first sector, the sector count and the
address of the memory buffer, acts on a world `W`, and yields a status. -/
structure Firmware (W : Type) where
  FwReadDiskSectors : Nat → Nat → Nat → Nat → W → KSTATUS × W
  FwWriteDiskSectors : Nat → Nat → Nat → Nat → W → KSTATUS × W

/-- The routine `FatReadDevice`. `FatIoBuffer` is `none` for a `NULL` pointer. The state
is the descriptor and the firmware's world as the routine leaves them. -/
def FatReadDevice {W : Type} (fw : Firmware W) (DeviceToken : BOOT_VOLUME)
    (BlockAddress BlockCount _Flags _Irp : Nat) (FatIoBuffer : Option BOOT_IO_BUFFER)
    (w : W) : Outcome KSTATUS (Option BOOT_IO_BUFFER × W) :=
  let Device := DeviceToken
  match FatIoBuffer with
  | none => .assertionFailed (none, w)
  | some IoBuffer =>
    if ¬ (castULONG BlockCount = BlockCount) then
      .assertionFailed (some IoBuffer, w)
    else if ¬ ((IoBuffer.Size + (WORD - IoBuffer.CurrentOffset % WORD)) % WORD ≥
        (BlockCount * Device.BlockSize) % WORD) then
      .assertionFailed (some IoBuffer, w)
    else
      let Buffer := (IoBuffer.Data + IoBuffer.CurrentOffset) % WORD
      let (Status, w) := fw.FwReadDiskSectors Device.DiskHandle BlockAddress BlockCount Buffer w
      if ¬ (KSUCCESS Status = true) then
        .returned Status (some IoBuffer, w)
      else
        .returned Status (some IoBuffer, w)

/-- The routine `FatWriteDevice`. `FatIoBuffer` is `none` for a `NULL` pointer. -/
def FatWriteDevice {W : Type} (fw : Firmware W) (DeviceToken : BOOT_VOLUME)
    (BlockAddress BlockCount _Flags _Irp : Nat) (FatIoBuffer : Option BOOT_IO_BUFFER)
    (w : W) : Outcome KSTATUS (Option BOOT_IO_BUFFER × W) :=
  match FatIoBuffer with
  | none => .assertionFailed (none, w)
  | some IoBuffer =>
    if ¬ (castULONG BlockCount = BlockCount) then
      .assertionFailed (some IoBuffer, w)
    else
      let Device := DeviceToken
      let Buffer := (IoBuffer.Data + IoBuffer.CurrentOffset) % WORD
      let (Status, w) :=
        fw.FwWriteDiskSectors Device.DiskHandle BlockAddress BlockCount Buffer w
      if ¬ (KSUCCESS Status = true) then
        .returned Status (some IoBuffer, w)
      else
        .returned Status (some IoBuffer, w)

/-! ## A mock firmware and a recording firmware -/

/-- The world of the mock firmware: memory, and one disk as a map from block address
to block contents (a block's contents map a byte index to a byte). -/
structure MockWorld where
  mem : Memory
  disk : Nat → Nat → Byte

/-- Modelled from the spec: the mock firmware backing store. A read of `SectorCount`
blocks of `BlockSize` bytes from block `Sector` on fills memory from `Buffer` on with
the blocks' bytes; a write stores the memory bytes into the blocks. Both always
succeed. -/
def mockFirmware (BlockSize : Nat) : Firmware MockWorld where
  FwReadDiskSectors := fun _DiskHandle Sector SectorCount Buffer w =>
    (STATUS_SUCCESS,
      { w with
        mem := fun a =>
          if Buffer ≤ a ∧ a < Buffer + SectorCount * BlockSize then
            w.disk (Sector + (a - Buffer) / BlockSize) ((a - Buffer) % BlockSize)
          else w.mem a })
  FwWriteDiskSectors := fun _DiskHandle Sector SectorCount Buffer w =>
    (STATUS_SUCCESS,
      { w with
        disk := fun block i =>
          if Sector ≤ block ∧ block < Sector + SectorCount ∧ i < BlockSize then
            w.mem (Buffer + (block - Sector) * BlockSize + i)
          else w.disk block i })

/-- One firmware disk call, as a recording firmware logs it. -/
structure FwCall where
  isWrite : Bool
  DiskHandle : Nat
  Sector : Nat
  SectorCount : Nat
  Buffer : Nat
deriving DecidableEq

/-- A firmware that forwards every call to `fw` and appends the call to a log. -/
def recordingFirmware {W : Type} (fw : Firmware W) : Firmware (W × List FwCall) where
  FwReadDiskSectors := fun DiskHandle Sector SectorCount Buffer w =>
    let r := fw.FwReadDiskSectors DiskHandle Sector SectorCount Buffer w.1
    (r.1, (r.2, w.2 ++ [⟨false, DiskHandle, Sector, SectorCount, Buffer⟩]))
  FwWriteDiskSectors := fun DiskHandle Sector SectorCount Buffer w =>
    let r := fw.FwWriteDiskSectors DiskHandle Sector SectorCount Buffer w.1
    (r.1, (r.2, w.2 ++ [⟨true, DiskHandle, Sector, SectorCount, Buffer⟩]))

/-- A firmware with no world of its own whose every call yields the status the oracle
gives for it. -/
def oracleFirmware (status : FwCall → KSTATUS) : Firmware Unit where
  FwReadDiskSectors := fun DiskHandle Sector SectorCount Buffer w =>
    (status ⟨false, DiskHandle, Sector, SectorCount, Buffer⟩, w)
  FwWriteDiskSectors := fun DiskHandle Sector SectorCount Buffer w =>
    (status ⟨true, DiskHandle, Sector, SectorCount, Buffer⟩, w)

/-! ## Theorems -/

/-! ### Creation -/

/-- C8: `FatAllocateIoBuffer` and `FatCreateIoBuffer` return `NULL` (`none`) when the boot
allocator returns `NULL`, and otherwise a buffer with `CurrentOffset = 0` and `Size` equal
to the requested size; the buffer of `FatCreateIoBuffer` has the supplied region as its
`Data`. -/
theorem FatAllocateIoBuffer_FatCreateIoBuffer_fresh (BoAllocateMemory : Nat → Nat)
    (DeviceToken Buffer Size : Nat) :
    (BoAllocateMemory ((sizeofBootIoBuffer + Size) % WORD) = 0 →
      FatAllocateIoBuffer BoAllocateMemory DeviceToken Size = none) ∧
    (BoAllocateMemory ((sizeofBootIoBuffer + Size) % WORD) ≠ 0 →
      ∃ p b, FatAllocateIoBuffer BoAllocateMemory DeviceToken Size = some (p, b) ∧
        b.CurrentOffset = 0 ∧ b.Size = Size) ∧
    (BoAllocateMemory sizeofBootIoBuffer = 0 →
      FatCreateIoBuffer BoAllocateMemory Buffer Size = none) ∧
    (BoAllocateMemory sizeofBootIoBuffer ≠ 0 →
      ∃ p b, FatCreateIoBuffer BoAllocateMemory Buffer Size = some (p, b) ∧
        b.CurrentOffset = 0 ∧ b.Size = Size ∧ b.Data = Buffer) := by
  refine ⟨?_, ?_, ?_, ?_⟩
  · intro h
    simp [FatAllocateIoBuffer, h]
  · intro h
    exact ⟨BoAllocateMemory ((sizeofBootIoBuffer + Size) % WORD),
      { Data := (BoAllocateMemory ((sizeofBootIoBuffer + Size) % WORD) + sizeofBootIoBuffer)
          % WORD,
        Size := Size, CurrentOffset := 0 },
      by simp [FatAllocateIoBuffer, h], rfl, rfl⟩
  · intro h
    simp [FatCreateIoBuffer, h]
  · intro h
    exact ⟨BoAllocateMemory sizeofBootIoBuffer,
      { Data := Buffer, Size := Size, CurrentOffset := 0 },
      by simp [FatCreateIoBuffer, h], rfl, rfl, rfl⟩

/-- C8 at concrete inputs: an allocator that serves requests of at most 4096 bytes at
address 65536 and fails larger ones; a 512-byte request succeeds, a 8192-byte one
fails. -/
theorem FatAllocateIoBuffer_FatCreateIoBuffer_fresh_witness :
    FatAllocateIoBuffer (fun n => if n ≤ 4096 then 65536 else 0) 0 512 =
        some (65536, { Data := 65560, Size := 512, CurrentOffset := 0 }) ∧
    FatAllocateIoBuffer (fun n => if n ≤ 4096 then 65536 else 0) 0 8192 = none ∧
    FatCreateIoBuffer (fun n => if n ≤ 4096 then 65536 else 0) 1048576 8192 =
        some (65536, { Data := 1048576, Size := 8192, CurrentOffset := 0 }) ∧
    FatCreateIoBuffer (fun _ => 0) 1048576 8192 = none ∧
    ((fun n => if n ≤ 4096 then 65536 else 0) ((sizeofBootIoBuffer + 8192) % WORD) = 0 →
      FatAllocateIoBuffer (fun n => if n ≤ 4096 then 65536 else 0) 0 8192 = none) :=
  ⟨by decide, by decide, by decide, by decide,
    (FatAllocateIoBuffer_FatCreateIoBuffer_fresh
      (fun n => if n ≤ 4096 then 65536 else 0) 0 1048576 8192).1⟩

/-! ### The cursor -/

/-- A buffer returned by either creation routine has a zero cursor and the requested
size. -/
theorem fresh_buffer_fields {BoAllocateMemory : Nat → Nat} {DeviceToken Buffer Size p : Nat}
    {IoBuffer : BOOT_IO_BUFFER}
    (hFresh : FatAllocateIoBuffer BoAllocateMemory DeviceToken Size = some (p, IoBuffer) ∨
      FatCreateIoBuffer BoAllocateMemory Buffer Size = some (p, IoBuffer)) :
    IoBuffer.CurrentOffset = 0 ∧ IoBuffer.Size = Size := by
  rcases hFresh with h | h
  · unfold FatAllocateIoBuffer at h
    simp only at h
    split at h
    · exact absurd h (by simp)
    · simp only [Option.some.injEq, Prod.mk.injEq] at h
      rw [← h.2]
      exact ⟨rfl, rfl⟩
  · unfold FatCreateIoBuffer at h
    simp only at h
    split at h
    · exact absurd h (by simp)
    · simp only [Option.some.injEq, Prod.mk.injEq] at h
      rw [← h.2]
      exact ⟨rfl, rfl⟩

/-- One call with a valid delta on a buffer that satisfies the invariant returns, and
moves the cursor by exactly the delta. -/
theorem FatIoBufferUpdateOffset_valid (IoBuffer : BOOT_IO_BUFFER) (OffsetUpdate : Nat)
    (Decrement : Bool) (hSize : IoBuffer.Size < WORD)
    (hInv : IoBuffer.CurrentOffset ≤ IoBuffer.Size)
    (hValid : if Decrement = false then IoBuffer.CurrentOffset + OffsetUpdate ≤ IoBuffer.Size
      else OffsetUpdate ≤ IoBuffer.CurrentOffset) :
    FatIoBufferUpdateOffset IoBuffer OffsetUpdate Decrement =
      .returned ()
        { IoBuffer with
          CurrentOffset :=
            if Decrement = false then IoBuffer.CurrentOffset + OffsetUpdate
            else IoBuffer.CurrentOffset - OffsetUpdate } := by
  cases Decrement
  · simp only [if_true] at hValid
    have h1 : (IoBuffer.CurrentOffset + OffsetUpdate) % WORD
        = IoBuffer.CurrentOffset + OffsetUpdate := Nat.mod_eq_of_lt (by omega)
    simp [FatIoBufferUpdateOffset, h1, hValid]
  · simp only [Bool.true_eq_false, if_false] at hValid
    have h1 : (IoBuffer.CurrentOffset + (WORD - OffsetUpdate % WORD)) % WORD
        = IoBuffer.CurrentOffset - OffsetUpdate := by
      simp only [WORD] at hSize ⊢
      omega
    have h2 : IoBuffer.CurrentOffset - OffsetUpdate ≤ IoBuffer.Size := by omega
    simp [FatIoBufferUpdateOffset, h1, h2]

/-- The invariant is kept along any sequence of valid deltas, from any buffer that
satisfies it. -/
theorem runOffsetUpdates_invariant_from (calls : List OffsetUpdateCall) :
    ∀ IoBuffer : BOOT_IO_BUFFER, IoBuffer.Size < WORD →
      IoBuffer.CurrentOffset ≤ IoBuffer.Size → ValidOffsetUpdates IoBuffer calls →
      (runOffsetUpdates IoBuffer calls).length = calls.length ∧
      ∀ o ∈ runOffsetUpdates IoBuffer calls,
        o.isReturned = true ∧ o.state.CurrentOffset ≤ o.state.Size ∧
          o.state.Size = IoBuffer.Size := by
  induction calls with
  | nil =>
    intro IoBuffer _ _ _
    simp [runOffsetUpdates]
  | cons call rest ih =>
    intro IoBuffer hSize hInv hValid
    obtain ⟨OffsetUpdate, Decrement⟩ := call
    obtain ⟨hHead, hRest⟩ := hValid
    have hStep := FatIoBufferUpdateOffset_valid IoBuffer OffsetUpdate Decrement hSize hInv hHead
    rw [hStep] at hRest
    simp only [Outcome.state] at hRest
    have hNextInv : (if Decrement = false then IoBuffer.CurrentOffset + OffsetUpdate
        else IoBuffer.CurrentOffset - OffsetUpdate) ≤ IoBuffer.Size := by
      cases Decrement
      · simpa using hHead
      · simp only [Bool.true_eq_false, if_false]
        omega
    obtain ⟨ihLen, ihAll⟩ := ih
      { IoBuffer with
        CurrentOffset :=
          if Decrement = false then IoBuffer.CurrentOffset + OffsetUpdate
          else IoBuffer.CurrentOffset - OffsetUpdate } hSize hNextInv hRest
    simp only [runOffsetUpdates, hStep]
    refine ⟨by simp [ihLen], ?_⟩
    intro o ho
    rcases List.mem_cons.mp ho with h | h
    · subst h
      exact ⟨rfl, hNextInv, rfl⟩
    · exact ihAll o h

/-- The descriptor `FatIoBufferUpdateOffset` leaves behind, whether or not its assertion
holds: only the cursor moves, modulo `2 ^ 64`. -/
theorem FatIoBufferUpdateOffset_state (IoBuffer : BOOT_IO_BUFFER) (OffsetUpdate : Nat)
    (Decrement : Bool) :
    (FatIoBufferUpdateOffset IoBuffer OffsetUpdate Decrement).state =
      { IoBuffer with
        CurrentOffset :=
          if Decrement = false then (IoBuffer.CurrentOffset + OffsetUpdate) % WORD
          else (IoBuffer.CurrentOffset + (WORD - OffsetUpdate % WORD)) % WORD } := by
  unfold FatIoBufferUpdateOffset
  cases Decrement <;> simp only [Bool.true_eq_false, if_true, if_false] <;>
    split <;> rfl

/-- C3: for every buffer (its cursor a `UINTN`) and every delta, a forward update followed
by a backward update by the same delta leaves the descriptor (`CurrentOffset`, `Data`
and `Size`) as it was before the two calls; and when the forward delta is valid
(`CurrentOffset + d ≤ Size`) both calls return without a failed assertion. -/
theorem FatIoBufferUpdateOffset_forward_backward (IoBuffer : BOOT_IO_BUFFER)
    (OffsetUpdate : Nat) (hOffset : IoBuffer.CurrentOffset < WORD) :
    (FatIoBufferUpdateOffset
        (FatIoBufferUpdateOffset IoBuffer OffsetUpdate false).state OffsetUpdate true).state
      = IoBuffer ∧
    (IoBuffer.CurrentOffset + OffsetUpdate ≤ IoBuffer.Size →
      (FatIoBufferUpdateOffset IoBuffer OffsetUpdate false).isReturned = true ∧
      FatIoBufferUpdateOffset
          (FatIoBufferUpdateOffset IoBuffer OffsetUpdate false).state OffsetUpdate true
        = .returned () IoBuffer) := by
  have hBack : ((IoBuffer.CurrentOffset + OffsetUpdate) % WORD
      + (WORD - OffsetUpdate % WORD)) % WORD = IoBuffer.CurrentOffset := by
    simp only [WORD] at hOffset ⊢
    omega
  have hState : (FatIoBufferUpdateOffset
        (FatIoBufferUpdateOffset IoBuffer OffsetUpdate false).state OffsetUpdate true).state
      = IoBuffer := by
    rw [FatIoBufferUpdateOffset_state, FatIoBufferUpdateOffset_state]
    simp [hBack]
  refine ⟨hState, ?_⟩
  intro hValid
  have hFwd : (IoBuffer.CurrentOffset + OffsetUpdate) % WORD ≤ IoBuffer.Size :=
    Nat.le_trans (Nat.mod_le _ _) hValid
  have hInv : IoBuffer.CurrentOffset ≤ IoBuffer.Size := by omega
  constructor
  · simp [FatIoBufferUpdateOffset, hFwd, Outcome.isReturned]
  · rw [FatIoBufferUpdateOffset_state]
    simp [FatIoBufferUpdateOffset, hBack, hInv]

/-- C3 at a concrete input: a buffer of size 512 with its cursor at 100 and the delta
1000, which moves the cursor past the end and back. -/
theorem FatIoBufferUpdateOffset_forward_backward_witness :
    (FatIoBufferUpdateOffset
        (FatIoBufferUpdateOffset { Data := 4096, Size := 512, CurrentOffset := 100 }
          1000 false).state 1000 true).state
      = { Data := 4096, Size := 512, CurrentOffset := 100 } :=
  (FatIoBufferUpdateOffset_forward_backward
    { Data := 4096, Size := 512, CurrentOffset := 100 } 1000 (by decide)).1

/-- C4: from a freshly created buffer (by `FatAllocateIoBuffer` or `FatCreateIoBuffer`,
so `CurrentOffset = 0`), along every finite sequence of `FatIoBufferUpdateOffset` calls
whose deltas are valid, every call runs, no assertion fails, and after every call
`CurrentOffset ≤ Size` with `Size` still the requested size. -/
theorem runOffsetUpdates_invariant (BoAllocateMemory : Nat → Nat)
    (DeviceToken Buffer Size p : Nat) (IoBuffer : BOOT_IO_BUFFER)
    (calls : List OffsetUpdateCall) (hSize : Size < WORD)
    (hFresh : FatAllocateIoBuffer BoAllocateMemory DeviceToken Size = some (p, IoBuffer) ∨
      FatCreateIoBuffer BoAllocateMemory Buffer Size = some (p, IoBuffer))
    (hValid : ValidOffsetUpdates IoBuffer calls) :
    (runOffsetUpdates IoBuffer calls).length = calls.length ∧
    ∀ o ∈ runOffsetUpdates IoBuffer calls,
      o.isReturned = true ∧ o.state.CurrentOffset ≤ o.state.Size ∧ o.state.Size = Size := by
  obtain ⟨hZero, hEq⟩ := fresh_buffer_fields hFresh
  have h := runOffsetUpdates_invariant_from calls IoBuffer (by omega) (by omega) hValid
  rw [hEq] at h
  exact h

/-- C4 at a concrete input: a 512-byte allocated buffer and the updates
`+100, -50, +462, -512`. -/
theorem runOffsetUpdates_invariant_witness :
    ValidOffsetUpdates { Data := 65560, Size := 512, CurrentOffset := 0 }
        [(100, false), (50, true), (462, false), (512, true)] ∧
    ((runOffsetUpdates { Data := 65560, Size := 512, CurrentOffset := 0 }
        [(100, false), (50, true), (462, false), (512, true)]).length = 4 ∧
      ∀ o ∈ runOffsetUpdates { Data := 65560, Size := 512, CurrentOffset := 0 }
          [(100, false), (50, true), (462, false), (512, true)],
        o.isReturned = true ∧ o.state.CurrentOffset ≤ o.state.Size ∧ o.state.Size = 512) :=
  ⟨by decide,
    runOffsetUpdates_invariant (fun _ => 65536) 0 0 512 65536
      { Data := 65560, Size := 512, CurrentOffset := 0 }
      [(100, false), (50, true), (462, false), (512, true)]
      (by decide) (Or.inl (by decide)) (by decide)⟩

/-! ### Zeroing -/

/-- Every byte of memory after `RtlZeroMemory`: zero inside the range, as before outside. -/
theorem RtlZeroMemory_apply (mem : Memory) (Buffer ByteCount a : Nat) :
    RtlZeroMemory mem Buffer ByteCount a =
      if Buffer ≤ a ∧ a < Buffer + ByteCount then 0 else mem a := by
  induction ByteCount with
  | zero =>
    have h : ¬ (Buffer ≤ a ∧ a < Buffer + 0) := by omega
    rw [if_neg h]
    rfl
  | succ n ih =>
    simp only [RtlZeroMemory, writeByte, ih]
    by_cases h1 : a = Buffer + n
    · have h2 : Buffer ≤ a ∧ a < Buffer + (n + 1) := by omega
      simp [h1]
    · by_cases h3 : Buffer ≤ a ∧ a < Buffer + n
      · have h4 : Buffer ≤ a ∧ a < Buffer + (n + 1) := by omega
        simp [h1, h3, h4]
      · have h4 : ¬ (Buffer ≤ a ∧ a < Buffer + (n + 1)) := by omega
        simp [h1, h3, h4]

/-- C2: for a buffer whose backing store lies in the address space and a range with
`CurrentOffset + Offset + ByteCount ≤ Size`, `FatZeroIoBuffer` returns success, leaves the
descriptor (so `Size` and `CurrentOffset`) unchanged, makes every backing-store byte at an
index in `[CurrentOffset + Offset, CurrentOffset + Offset + ByteCount)` zero, and leaves
every byte of memory outside that range as it was. -/
theorem FatZeroIoBuffer_zeroes_range (IoBuffer : BOOT_IO_BUFFER) (Offset ByteCount : Nat)
    (mem : Memory) (hStore : IoBuffer.Data + IoBuffer.Size ≤ WORD)
    (hRange : IoBuffer.CurrentOffset + Offset + ByteCount ≤ IoBuffer.Size) :
    (FatZeroIoBuffer IoBuffer Offset ByteCount mem).1 = STATUS_SUCCESS ∧
    (FatZeroIoBuffer IoBuffer Offset ByteCount mem).2.1 = IoBuffer ∧
    (∀ i, IoBuffer.CurrentOffset + Offset ≤ i →
      i < IoBuffer.CurrentOffset + Offset + ByteCount →
        (FatZeroIoBuffer IoBuffer Offset ByteCount mem).2.2 (IoBuffer.Data + i) = 0) ∧
    (∀ i, ¬ (IoBuffer.CurrentOffset + Offset ≤ i ∧
        i < IoBuffer.CurrentOffset + Offset + ByteCount) →
      (FatZeroIoBuffer IoBuffer Offset ByteCount mem).2.2 (IoBuffer.Data + i)
        = mem (IoBuffer.Data + i)) ∧
    (∀ a, a < IoBuffer.Data →
      (FatZeroIoBuffer IoBuffer Offset ByteCount mem).2.2 a = mem a) := by
  have hBase : 0 < ByteCount →
      (IoBuffer.Data + IoBuffer.CurrentOffset + Offset) % WORD
        = IoBuffer.Data + IoBuffer.CurrentOffset + Offset := by
    intro h
    exact Nat.mod_eq_of_lt (by omega)
  refine ⟨rfl, rfl, ?_, ?_, ?_⟩
  · intro i h1 h2
    simp only [FatZeroIoBuffer, RtlZeroMemory_apply]
    rw [hBase (by omega)]
    rw [if_pos (by omega)]
  · intro i h
    simp only [FatZeroIoBuffer, RtlZeroMemory_apply]
    rcases Nat.eq_zero_or_pos ByteCount with h0 | h0
    · subst h0
      rw [if_neg (by omega)]
    · rw [hBase h0]
      rw [if_neg (by omega)]
  · intro a h
    simp only [FatZeroIoBuffer, RtlZeroMemory_apply]
    rcases Nat.eq_zero_or_pos ByteCount with h0 | h0
    · subst h0
      rw [if_neg (by omega)]
    · rw [hBase h0]
      rw [if_neg (by omega)]

/-- C2 at a concrete input: zeroing bytes `[512, 1024)` of a 4096-byte buffer at address
65536 whose memory holds `7` everywhere. -/
theorem FatZeroIoBuffer_zeroes_range_witness :
    (FatZeroIoBuffer { Data := 65536, Size := 4096, CurrentOffset := 0 } 512 512
        (fun _ => 7)).2.2 (65536 + 600) = 0 ∧
    (FatZeroIoBuffer { Data := 65536, Size := 4096, CurrentOffset := 0 } 512 512
        (fun _ => 7)).2.2 (65536 + 1024) = 7 :=
  ⟨(FatZeroIoBuffer_zeroes_range { Data := 65536, Size := 4096, CurrentOffset := 0 } 512 512
      (fun _ => 7) (by decide) (by decide)).2.2.1 600 (by decide) (by decide),
    (FatZeroIoBuffer_zeroes_range { Data := 65536, Size := 4096, CurrentOffset := 0 } 512 512
      (fun _ => 7) (by decide) (by decide)).2.2.2.1 1024 (by decide)⟩

/-! ### Copying -/

/-- Every byte of memory after `RtlCopyMemory` between two ranges that do not overlap: the
destination range holds the source bytes as they were, the rest is as before. -/
theorem RtlCopyMemory_apply_of_disjoint (mem : Memory) (Destination Source ByteCount a : Nat)
    (hDisjoint : Destination + ByteCount ≤ Source ∨ Source + ByteCount ≤ Destination) :
    RtlCopyMemory mem Destination Source ByteCount a =
      if Destination ≤ a ∧ a < Destination + ByteCount then mem (Source + (a - Destination))
      else mem a := by
  induction ByteCount generalizing a with
  | zero =>
    have h : ¬ (Destination ≤ a ∧ a < Destination + 0) := by omega
    rw [if_neg h]
    rfl
  | succ n ih =>
    have hDisjoint' : Destination + n ≤ Source ∨ Source + n ≤ Destination := by omega
    simp only [RtlCopyMemory, writeByte]
    by_cases h1 : a = Destination + n
    · rw [if_pos h1, ih (Source + n) hDisjoint']
      rw [if_neg (by omega), if_pos (by omega)]
      subst h1
      congr 1
      omega
    · rw [if_neg h1, ih a hDisjoint']
      by_cases h3 : Destination ≤ a ∧ a < Destination + n
      · rw [if_pos h3, if_pos (by omega)]
      · rw [if_neg h3, if_neg (by omega)]

/-- C1: for two buffers whose backing stores lie in the address space, whose
cursor-relative windows of `ByteCount` bytes lie within their backing stores, and whose
windows do not overlap, `FatCopyIoBuffer` returns success and afterwards byte `i` of the
destination window equals byte `i` of the source window as it was before the call, for
every `i < ByteCount`. -/
theorem FatCopyIoBuffer_copies_window (Destination : BOOT_IO_BUFFER) (DestinationOffset : Nat)
    (Source : BOOT_IO_BUFFER) (SourceOffset ByteCount : Nat) (mem : Memory)
    (hDestinationStore : Destination.Data + Destination.Size ≤ WORD)
    (hSourceStore : Source.Data + Source.Size ≤ WORD)
    (hDestination :
      Destination.CurrentOffset + DestinationOffset + ByteCount ≤ Destination.Size)
    (hSource : Source.CurrentOffset + SourceOffset + ByteCount ≤ Source.Size)
    (hDisjoint :
      Destination.Data + Destination.CurrentOffset + DestinationOffset + ByteCount
          ≤ Source.Data + Source.CurrentOffset + SourceOffset ∨
        Source.Data + Source.CurrentOffset + SourceOffset + ByteCount
          ≤ Destination.Data + Destination.CurrentOffset + DestinationOffset) :
    (FatCopyIoBuffer Destination DestinationOffset Source SourceOffset ByteCount mem).1
      = STATUS_SUCCESS ∧
    ∀ i, i < ByteCount →
      (FatCopyIoBuffer Destination DestinationOffset Source SourceOffset ByteCount mem).2
          (Destination.Data + Destination.CurrentOffset + DestinationOffset + i)
        = mem (Source.Data + Source.CurrentOffset + SourceOffset + i) := by
  refine ⟨rfl, ?_⟩
  intro i hi
  have hD : (Destination.Data + Destination.CurrentOffset + DestinationOffset) % WORD
      = Destination.Data + Destination.CurrentOffset + DestinationOffset :=
    Nat.mod_eq_of_lt (by omega)
  have hS : (Source.Data + Source.CurrentOffset + SourceOffset) % WORD
      = Source.Data + Source.CurrentOffset + SourceOffset :=
    Nat.mod_eq_of_lt (by omega)
  simp only [FatCopyIoBuffer, hD, hS]
  rw [RtlCopyMemory_apply_of_disjoint _ _ _ _ _ hDisjoint, if_pos (by omega)]
  congr 1
  omega

/-- C1 at a concrete input: 4 bytes copied from offset 8 of a buffer at address 8192 to
offset 2 of a buffer at address 4096 (cursor 16), over a memory whose byte at address
`a` is `a % 256`. -/
theorem FatCopyIoBuffer_copies_window_witness :
    (FatCopyIoBuffer { Data := 4096, Size := 64, CurrentOffset := 16 } 2
        { Data := 8192, Size := 64, CurrentOffset := 0 } 8 4 (fun a => a % 256)).2
      (4096 + 16 + 2 + 3) = (8192 + 0 + 8 + 3) % 256 :=
  (FatCopyIoBuffer_copies_window { Data := 4096, Size := 64, CurrentOffset := 16 } 2
    { Data := 8192, Size := 64, CurrentOffset := 0 } 8 4 (fun a => a % 256)
    (by decide) (by decide) (by decide) (by decide) (Or.inl (by decide))).2 3 (by decide)

/-- When the asserted bound holds, `FatCopyIoBufferData` returns success, leaves the
descriptor as it was, and leaves memory as `RtlCopyMemory` does in the chosen
direction. -/
theorem FatCopyIoBufferData_returned (IoBuffer : BOOT_IO_BUFFER) (Buffer Offset Size : Nat)
    (ToIoBuffer : Bool) (mem : Memory)
    (hRange : IoBuffer.CurrentOffset + Offset + Size ≤ IoBuffer.Size) :
    FatCopyIoBufferData IoBuffer Buffer Offset Size ToIoBuffer mem =
      .returned STATUS_SUCCESS
        (IoBuffer,
          if ToIoBuffer = false then
            RtlCopyMemory mem Buffer
              ((IoBuffer.Data + IoBuffer.CurrentOffset + Offset) % WORD) Size
          else
            RtlCopyMemory mem
              ((IoBuffer.Data + IoBuffer.CurrentOffset + Offset) % WORD) Buffer Size) := by
  have hAssert : (IoBuffer.CurrentOffset + Offset + Size) % WORD ≤ IoBuffer.Size :=
    Nat.le_trans (Nat.mod_le _ _) hRange
  cases ToIoBuffer <;> simp [FatCopyIoBufferData, hAssert]

/-- C9 (as amended): for a buffer whose backing store lies in the address space, a window
with `CurrentOffset + Offset + Size ≤ IoBuffer.Size`, and a linear region of `Size` bytes
that does not overlap the buffer's backing store, `FatCopyIoBufferData` returns success
and leaves the descriptor unchanged; copying into the buffer makes the window equal to
the linear region's bytes and leaves the linear region unchanged; copying out of the
buffer makes the linear region equal to the window and leaves the backing store
unchanged; and copying in and then out reproduces the linear region's original bytes. -/
theorem FatCopyIoBufferData_copies_window (IoBuffer : BOOT_IO_BUFFER)
    (Buffer Offset Size : Nat) (mem : Memory)
    (hStore : IoBuffer.Data + IoBuffer.Size ≤ WORD)
    (hRange : IoBuffer.CurrentOffset + Offset + Size ≤ IoBuffer.Size)
    (hDisjoint : Buffer + Size ≤ IoBuffer.Data ∨ IoBuffer.Data + IoBuffer.Size ≤ Buffer) :
    (∃ memIn,
      FatCopyIoBufferData IoBuffer Buffer Offset Size true mem
        = .returned STATUS_SUCCESS (IoBuffer, memIn) ∧
      (∀ i, i < Size →
        memIn (IoBuffer.Data + IoBuffer.CurrentOffset + Offset + i) = mem (Buffer + i)) ∧
      (∀ i, i < Size → memIn (Buffer + i) = mem (Buffer + i)) ∧
      ∃ memBack,
        FatCopyIoBufferData IoBuffer Buffer Offset Size false memIn
          = .returned STATUS_SUCCESS (IoBuffer, memBack) ∧
        ∀ i, i < Size → memBack (Buffer + i) = mem (Buffer + i)) ∧
    (∃ memOut,
      FatCopyIoBufferData IoBuffer Buffer Offset Size false mem
        = .returned STATUS_SUCCESS (IoBuffer, memOut) ∧
      (∀ i, i < Size →
        memOut (Buffer + i) = mem (IoBuffer.Data + IoBuffer.CurrentOffset + Offset + i)) ∧
      (∀ j, j < IoBuffer.Size → memOut (IoBuffer.Data + j) = mem (IoBuffer.Data + j))) := by
  rcases Nat.eq_zero_or_pos Size with h0 | hPos
  · subst h0
    refine ⟨⟨_, FatCopyIoBufferData_returned IoBuffer Buffer Offset 0 true mem hRange,
        fun i hi => absurd hi (by omega), fun i hi => absurd hi (by omega),
        _, FatCopyIoBufferData_returned IoBuffer Buffer Offset 0 false _ hRange,
        fun i hi => absurd hi (by omega)⟩,
      _, FatCopyIoBufferData_returned IoBuffer Buffer Offset 0 false mem hRange,
        fun i hi => absurd hi (by omega), fun j _ => rfl⟩
  · have hW : (IoBuffer.Data + IoBuffer.CurrentOffset + Offset) % WORD
        = IoBuffer.Data + IoBuffer.CurrentOffset + Offset :=
      Nat.mod_eq_of_lt (by omega)
    have hIn : IoBuffer.Data + IoBuffer.CurrentOffset + Offset + Size ≤ Buffer ∨
        Buffer + Size ≤ IoBuffer.Data + IoBuffer.CurrentOffset + Offset := by omega
    have hOut : Buffer + Size ≤ IoBuffer.Data + IoBuffer.CurrentOffset + Offset ∨
        IoBuffer.Data + IoBuffer.CurrentOffset + Offset + Size ≤ Buffer := by omega
    have hInWindow : ∀ i, i < Size →
        RtlCopyMemory mem (IoBuffer.Data + IoBuffer.CurrentOffset + Offset) Buffer Size
            (IoBuffer.Data + IoBuffer.CurrentOffset + Offset + i) = mem (Buffer + i) := by
      intro i hi
      rw [RtlCopyMemory_apply_of_disjoint _ _ _ _ _ hIn, if_pos (by omega)]
      congr 1
      omega
    have hInLinear : ∀ i, i < Size →
        RtlCopyMemory mem (IoBuffer.Data + IoBuffer.CurrentOffset + Offset) Buffer Size
            (Buffer + i) = mem (Buffer + i) := by
      intro i hi
      rw [RtlCopyMemory_apply_of_disjoint _ _ _ _ _ hIn, if_neg (by omega)]
    have hOutLinear : ∀ (m : Memory) (i : Nat), i < Size →
        RtlCopyMemory m Buffer (IoBuffer.Data + IoBuffer.CurrentOffset + Offset) Size
            (Buffer + i) = m (IoBuffer.Data + IoBuffer.CurrentOffset + Offset + i) := by
      intro m i hi
      rw [RtlCopyMemory_apply_of_disjoint _ _ _ _ _ hOut, if_pos (by omega)]
      congr 1
      omega
    refine ⟨⟨_, FatCopyIoBufferData_returned IoBuffer Buffer Offset Size true mem hRange,
        ?_, ?_, _, FatCopyIoBufferData_returned IoBuffer Buffer Offset Size false _ hRange,
        ?_⟩,
      _, FatCopyIoBufferData_returned IoBuffer Buffer Offset Size false mem hRange, ?_, ?_⟩
    · intro i hi
      simp only [hW, if_false, Bool.true_eq_false]
      exact hInWindow i hi
    · intro i hi
      simp only [hW, if_false, Bool.true_eq_false]
      exact hInLinear i hi
    · intro i hi
      simp only [hW, if_false, if_true, Bool.true_eq_false]
      rw [hOutLinear _ i hi]
      exact hInWindow i hi
    · intro i hi
      simp only [hW, if_true]
      exact hOutLinear mem i hi
    · intro j hj
      simp only [hW, if_true]
      rw [RtlCopyMemory_apply_of_disjoint _ _ _ _ _ hOut, if_neg (by omega)]

/-- C9 (as amended) at a concrete input: a 16-byte buffer at address 4096 with its cursor
at 4, a 3-byte linear region at address 8192, offset 2, over a memory whose byte at
address `a` is `a % 256`. -/
theorem FatCopyIoBufferData_copies_window_witness :
    ∃ memOut,
      FatCopyIoBufferData { Data := 4096, Size := 16, CurrentOffset := 4 } 8192 2 3 false
          (fun a => a % 256)
        = .returned STATUS_SUCCESS ({ Data := 4096, Size := 16, CurrentOffset := 4 }, memOut) ∧
      (∀ i, i < 3 → memOut (8192 + i) = (4096 + 4 + 2 + i) % 256) ∧
      (∀ j, j < 16 → memOut (4096 + j) = (4096 + j) % 256) :=
  (FatCopyIoBufferData_copies_window { Data := 4096, Size := 16, CurrentOffset := 4 } 8192 2 3
    (fun a => a % 256) (by decide) (by decide) (Or.inr (by decide))).2

/-- C9 as stated fails when the linear region overlaps the buffer window: with a 4-byte
buffer at address 100, the linear region at address 101, `Offset = 0`, `Size = 2` and
memory holding `a` at address `a`, the bound `0 + 0 + 2 ≤ 4` holds and the copy into the
buffer returns success, yet the linear region is not unchanged (its first byte goes from
`101` to `102`). No memory at all could meet the claim at this input: the window equal to
the old linear bytes forces the byte at address 101 to be `102`, the linear region
unchanged forces it to be `101`. -/
theorem FatCopyIoBufferData_overlap_counterexample :
    (0 + 0 + 2 ≤ (4 : Nat)) ∧
    (FatCopyIoBufferData { Data := 100, Size := 4, CurrentOffset := 0 } 101 0 2 true
        (fun a => a)).isReturned = true ∧
    ¬ (∀ i, i < 2 →
      (FatCopyIoBufferData { Data := 100, Size := 4, CurrentOffset := 0 } 101 0 2 true
          (fun a => a)).state.2 (101 + i) = (fun a : Nat => a) (101 + i)) ∧
    ∀ memAfter : Memory,
      ¬ ((∀ i, i < 2 → memAfter (100 + 0 + 0 + i) = (fun a : Nat => a) (101 + i)) ∧
        (∀ i, i < 2 → memAfter (101 + i) = (fun a : Nat => a) (101 + i))) := by
  refine ⟨by decide, by decide, ?_, ?_⟩
  · intro h
    exact absurd (h 0 (by decide)) (by decide)
  · intro memAfter h
    have h1 : memAfter 101 = 102 := h.1 1 (by decide)
    have h2 : memAfter 101 = 101 := h.2 0 (by decide)
    rw [h1] at h2
    exact absurd h2 (by decide)

/-! ### Block transfers -/

/-- The size assertion of `FatReadDevice`, evaluated in `UINTN` arithmetic, holds whenever
the precondition holds in unbounded arithmetic for a well-formed buffer. -/
theorem size_assertion_of_precondition (IoBuffer : BOOT_IO_BUFFER) (BlockCount BlockSize : Nat)
    (hSize : IoBuffer.Size < WORD) (hOffset : IoBuffer.CurrentOffset ≤ IoBuffer.Size)
    (hPre : BlockCount * BlockSize ≤ IoBuffer.Size - IoBuffer.CurrentOffset) :
    (IoBuffer.Size + (WORD - IoBuffer.CurrentOffset % WORD)) % WORD ≥
      (BlockCount * BlockSize) % WORD := by
  have h1 : (BlockCount * BlockSize) % WORD ≤ BlockCount * BlockSize := Nat.mod_le _ _
  have h2 : (IoBuffer.Size + (WORD - IoBuffer.CurrentOffset % WORD)) % WORD
      = IoBuffer.Size - IoBuffer.CurrentOffset := by
    simp only [WORD] at hSize ⊢
    omega
  rw [h2]
  exact Nat.le_trans h1 hPre

/-- C6: for a well-formed buffer and arguments that satisfy the preconditions (block count
a `ULONG`, `Size - CurrentOffset ≥ BlockCount * BlockSize`), over any firmware,
`FatReadDevice` (resp. `FatWriteDevice`) makes exactly one firmware call, a read (resp.
write) with arguments (disk handle, `BlockAddress`, `BlockCount`, `Data + CurrentOffset`),
returns exactly the status of that call, and leaves the descriptor unchanged. -/
theorem FatReadDevice_FatWriteDevice_single_call {W : Type} (fw : Firmware W)
    (Device : BOOT_VOLUME) (BlockAddress BlockCount Flags Irp : Nat)
    (IoBuffer : BOOT_IO_BUFFER) (w : W) (log : List FwCall)
    (hStore : IoBuffer.Data + IoBuffer.Size < WORD)
    (hOffset : IoBuffer.CurrentOffset ≤ IoBuffer.Size)
    (hCount : BlockCount < ULONG_RANGE)
    (hPre : BlockCount * Device.BlockSize ≤ IoBuffer.Size - IoBuffer.CurrentOffset) :
    FatReadDevice (recordingFirmware fw) Device BlockAddress BlockCount Flags Irp
        (some IoBuffer) (w, log) =
      .returned
        (fw.FwReadDiskSectors Device.DiskHandle BlockAddress BlockCount
          (IoBuffer.Data + IoBuffer.CurrentOffset) w).1
        (some IoBuffer,
          ((fw.FwReadDiskSectors Device.DiskHandle BlockAddress BlockCount
            (IoBuffer.Data + IoBuffer.CurrentOffset) w).2,
           log ++ [⟨false, Device.DiskHandle, BlockAddress, BlockCount,
             IoBuffer.Data + IoBuffer.CurrentOffset⟩])) ∧
    FatWriteDevice (recordingFirmware fw) Device BlockAddress BlockCount Flags Irp
        (some IoBuffer) (w, log) =
      .returned
        (fw.FwWriteDiskSectors Device.DiskHandle BlockAddress BlockCount
          (IoBuffer.Data + IoBuffer.CurrentOffset) w).1
        (some IoBuffer,
          ((fw.FwWriteDiskSectors Device.DiskHandle BlockAddress BlockCount
            (IoBuffer.Data + IoBuffer.CurrentOffset) w).2,
           log ++ [⟨true, Device.DiskHandle, BlockAddress, BlockCount,
             IoBuffer.Data + IoBuffer.CurrentOffset⟩])) := by
  have hCast : castULONG BlockCount = BlockCount := Nat.mod_eq_of_lt hCount
  have hAssert := size_assertion_of_precondition IoBuffer BlockCount Device.BlockSize
    (by omega) hOffset hPre
  have hAddr : (IoBuffer.Data + IoBuffer.CurrentOffset) % WORD
      = IoBuffer.Data + IoBuffer.CurrentOffset := Nat.mod_eq_of_lt (by omega)
  constructor
  · simp only [FatReadDevice, hCast, not_true_eq_false, if_false, hAssert, hAddr,
      recordingFirmware, ite_self]
  · simp only [FatWriteDevice, hCast, not_true_eq_false, if_false, hAddr,
      recordingFirmware, ite_self]

/-- C6 at a concrete input: a firmware whose every call fails with status `-5`; two
512-byte blocks at block 100, a 2048-byte buffer at address 4096 with its cursor at
1024. -/
theorem FatReadDevice_FatWriteDevice_single_call_witness :
    FatReadDevice (recordingFirmware (oracleFirmware (fun _ => -5)))
        { DiskHandle := 7, BlockSize := 512 } 100 2 0 0
        (some { Data := 4096, Size := 2048, CurrentOffset := 1024 }) ((), []) =
      .returned (-5)
        (some { Data := 4096, Size := 2048, CurrentOffset := 1024 },
          ((), [⟨false, 7, 100, 2, 5120⟩])) :=
  (FatReadDevice_FatWriteDevice_single_call (oracleFirmware (fun _ => -5))
    { DiskHandle := 7, BlockSize := 512 } 100 2 0 0
    { Data := 4096, Size := 2048, CurrentOffset := 1024 } () []
    (by decide) (by decide) (by decide) (by decide)).1

/-- C7 at a failing input: one 512-byte block and a buffer of size 0. `FatReadDevice`
stops at its size assertion without a firmware call; `FatWriteDevice`, which has no
such assertion, issues the firmware write and returns its status. -/
theorem FatWriteDevice_no_size_assertion :
    FatReadDevice (recordingFirmware (oracleFirmware (fun _ => STATUS_SUCCESS)))
        { DiskHandle := 7, BlockSize := 512 } 100 1 0 0
        (some { Data := 4096, Size := 0, CurrentOffset := 0 }) ((), []) =
      .assertionFailed (some { Data := 4096, Size := 0, CurrentOffset := 0 }, ((), [])) ∧
    FatWriteDevice (recordingFirmware (oracleFirmware (fun _ => STATUS_SUCCESS)))
        { DiskHandle := 7, BlockSize := 512 } 100 1 0 0
        (some { Data := 4096, Size := 0, CurrentOffset := 0 }) ((), []) =
      .returned STATUS_SUCCESS
        (some { Data := 4096, Size := 0, CurrentOffset := 0 },
          ((), [⟨true, 7, 100, 1, 4096⟩])) :=
  ⟨rfl, rfl⟩

/-- C10: in `FatReadDevice`, with `UINTN` arithmetic modulo `2 ^ 64`, a 32-bit block size
and a buffer with `CurrentOffset ≤ Size`, whenever the routine gets past its assertions
the unbounded byte count `BlockCount * BlockSize` is at most `Size - CurrentOffset`, so
the transfer window `[CurrentOffset, CurrentOffset + BlockCount * BlockSize)` lies inside
the backing store. -/
theorem FatReadDevice_assertions_bound_transfer {W : Type} (fw : Firmware W)
    (Device : BOOT_VOLUME) (BlockAddress BlockCount Flags Irp : Nat)
    (IoBuffer : BOOT_IO_BUFFER) (w : W)
    (hBlockSize : Device.BlockSize < ULONG_RANGE)
    (hSize : IoBuffer.Size < WORD)
    (hOffset : IoBuffer.CurrentOffset ≤ IoBuffer.Size)
    (hReturned : (FatReadDevice fw Device BlockAddress BlockCount Flags Irp
      (some IoBuffer) w).isReturned = true) :
    BlockCount * Device.BlockSize ≤ IoBuffer.Size - IoBuffer.CurrentOffset ∧
    IoBuffer.CurrentOffset + BlockCount * Device.BlockSize ≤ IoBuffer.Size := by
  unfold FatReadDevice at hReturned
  simp only at hReturned
  split at hReturned
  · exact absurd hReturned (by simp [Outcome.isReturned])
  · rename_i hCast
    split at hReturned
    · exact absurd hReturned (by simp [Outcome.isReturned])
    · rename_i hAssert
      have hCast' : castULONG BlockCount = BlockCount := Decidable.of_not_not hCast
      have hCount : BlockCount < ULONG_RANGE := by
        unfold castULONG at hCast'
        rw [← hCast']
        exact Nat.mod_lt _ (by decide)
      have hAssert' := Decidable.of_not_not hAssert
      have hProd : BlockCount * Device.BlockSize < ULONG_RANGE * ULONG_RANGE :=
        Nat.mul_lt_mul'' hCount hBlockSize
      have hProdW : BlockCount * Device.BlockSize < WORD := by
        have : ULONG_RANGE * ULONG_RANGE = WORD := by decide
        omega
      rw [Nat.mod_eq_of_lt hProdW] at hAssert'
      have h2 : (IoBuffer.Size + (WORD - IoBuffer.CurrentOffset % WORD)) % WORD
          = IoBuffer.Size - IoBuffer.CurrentOffset := by
        simp only [WORD] at hSize ⊢
        omega
      rw [h2] at hAssert'
      have h3 : BlockCount * Device.BlockSize ≤ IoBuffer.Size - IoBuffer.CurrentOffset :=
        hAssert'
      exact ⟨h3, by omega⟩

/-- C10 at a concrete input: eight 512-byte blocks into a 4096-byte buffer with its cursor
at 0. -/
theorem FatReadDevice_assertions_bound_transfer_witness :
    (FatReadDevice (oracleFirmware (fun _ => STATUS_SUCCESS))
        { DiskHandle := 7, BlockSize := 512 } 100 8 0 0
        (some { Data := 65536, Size := 4096, CurrentOffset := 0 }) ()).isReturned = true ∧
    8 * 512 ≤ 4096 - 0 ∧ 0 + 8 * 512 ≤ 4096 :=
  ⟨by decide,
    FatReadDevice_assertions_bound_transfer (oracleFirmware (fun _ => STATUS_SUCCESS))
      { DiskHandle := 7, BlockSize := 512 } 100 8 0 0
      { Data := 65536, Size := 4096, CurrentOffset := 0 } ()
      (by decide) (by decide) (by decide) (by decide)⟩

/-- Over the mock firmware, a write of the blocks just read into the same memory address
restores the disk. -/
theorem mockFirmware_read_write_disk (BlockSize DiskHandle Sector SectorCount Buffer : Nat)
    (w : MockWorld) :
    ((mockFirmware BlockSize).FwWriteDiskSectors DiskHandle Sector SectorCount Buffer
      ((mockFirmware BlockSize).FwReadDiskSectors DiskHandle Sector SectorCount
        Buffer w).2).2.disk = w.disk := by
  funext block i
  simp only [mockFirmware]
  by_cases h : Sector ≤ block ∧ block < Sector + SectorCount ∧ i < BlockSize
  · rw [if_pos h]
    obtain ⟨h1, h2, h3⟩ := h
    have hk : block - Sector + 1 ≤ SectorCount := by omega
    have hmul : (block - Sector + 1) * BlockSize ≤ SectorCount * BlockSize :=
      Nat.mul_le_mul_right _ hk
    rw [Nat.add_mul, Nat.one_mul] at hmul
    have hsub : Buffer + (block - Sector) * BlockSize + i - Buffer
        = BlockSize * (block - Sector) + i := by
      rw [Nat.mul_comm BlockSize]
      omega
    rw [if_pos (by omega), hsub, Nat.mul_add_div (by omega), Nat.mul_add_mod,
      Nat.div_eq_of_lt h3, Nat.mod_eq_of_lt h3]
    congr 1
    omega
  · rw [if_neg h]

/-- C5: over the mock firmware backing store with the device's block size, for a
well-formed buffer with `Size - CurrentOffset ≥ BlockCount * BlockSize`, `FatReadDevice`
followed by `FatWriteDevice` with the same buffer, block address and block count leaves
the whole disk equal to what it was before the read; and when the block count is a
`ULONG` both calls return success. -/
theorem FatReadDevice_FatWriteDevice_roundtrip (Device : BOOT_VOLUME)
    (BlockAddress BlockCount Flags Irp : Nat) (IoBuffer : BOOT_IO_BUFFER) (w : MockWorld)
    (hSize : IoBuffer.Size < WORD)
    (hOffset : IoBuffer.CurrentOffset ≤ IoBuffer.Size)
    (hPre : BlockCount * Device.BlockSize ≤ IoBuffer.Size - IoBuffer.CurrentOffset) :
    (FatWriteDevice (mockFirmware Device.BlockSize) Device BlockAddress BlockCount Flags Irp
        (some IoBuffer)
        (FatReadDevice (mockFirmware Device.BlockSize) Device BlockAddress BlockCount Flags
          Irp (some IoBuffer) w).state.2).state.2.disk = w.disk ∧
    (BlockCount < ULONG_RANGE →
      ∃ w1 w2,
        FatReadDevice (mockFirmware Device.BlockSize) Device BlockAddress BlockCount Flags
            Irp (some IoBuffer) w = .returned STATUS_SUCCESS (some IoBuffer, w1) ∧
        FatWriteDevice (mockFirmware Device.BlockSize) Device BlockAddress BlockCount Flags
            Irp (some IoBuffer) w1 = .returned STATUS_SUCCESS (some IoBuffer, w2) ∧
        w2.disk = w.disk) := by
  have hAssert := size_assertion_of_precondition IoBuffer BlockCount Device.BlockSize
    hSize hOffset hPre
  have hRead : castULONG BlockCount = BlockCount →
      FatReadDevice (mockFirmware Device.BlockSize) Device BlockAddress BlockCount Flags
          Irp (some IoBuffer) w =
        .returned STATUS_SUCCESS
          (some IoBuffer,
            ((mockFirmware Device.BlockSize).FwReadDiskSectors Device.DiskHandle BlockAddress
              BlockCount ((IoBuffer.Data + IoBuffer.CurrentOffset) % WORD) w).2) := by
    intro hCast
    simp only [FatReadDevice, hCast, not_true_eq_false, if_false, hAssert, ite_self]
    rfl
  have hWrite : ∀ w1 : MockWorld, castULONG BlockCount = BlockCount →
      FatWriteDevice (mockFirmware Device.BlockSize) Device BlockAddress BlockCount Flags
          Irp (some IoBuffer) w1 =
        .returned STATUS_SUCCESS
          (some IoBuffer,
            ((mockFirmware Device.BlockSize).FwWriteDiskSectors Device.DiskHandle BlockAddress
              BlockCount ((IoBuffer.Data + IoBuffer.CurrentOffset) % WORD) w1).2) := by
    intro w1 hCast
    simp only [FatWriteDevice, hCast, not_true_eq_false, if_false, ite_self]
    rfl
  constructor
  · by_cases hCast : castULONG BlockCount = BlockCount
    · rw [hRead hCast]
      simp only [Outcome.state]
      rw [hWrite _ hCast]
      simp only [Outcome.state]
      exact mockFirmware_read_write_disk _ _ _ _ _ w
    · simp [FatReadDevice, FatWriteDevice, hCast, Outcome.state]
  · intro hCount
    have hCast : castULONG BlockCount = BlockCount := Nat.mod_eq_of_lt hCount
    exact ⟨_, _, hRead hCast, hWrite _ hCast, mockFirmware_read_write_disk _ _ _ _ _ w⟩

/-- C5 at a concrete input: two 4-byte blocks at block 10 read into an 8-byte buffer at
address 4096 and written back, over a disk whose block `b` holds the byte `b + i` at
index `i`. -/
theorem FatReadDevice_FatWriteDevice_roundtrip_witness :
    (FatWriteDevice (mockFirmware 4) { DiskHandle := 7, BlockSize := 4 } 10 2 0 0
        (some { Data := 4096, Size := 8, CurrentOffset := 0 })
        (FatReadDevice (mockFirmware 4) { DiskHandle := 7, BlockSize := 4 } 10 2 0 0
          (some { Data := 4096, Size := 8, CurrentOffset := 0 })
          { mem := fun _ => 0, disk := fun b i => b + i }).state.2).state.2.disk
      = fun b i => b + i :=
  (FatReadDevice_FatWriteDevice_roundtrip { DiskHandle := 7, BlockSize := 4 } 10 2 0 0
    { Data := 4096, Size := 8, CurrentOffset := 0 }
    { mem := fun _ => 0, disk := fun b i => b + i }
    (by decide) (by decide) (by decide)).1

end BootFat
